import Mathlib

/-!
Verification of the dice-game fairness protocol (`src/diceGame.js`).

The JavaScript source is shallowly embedded below.  Randomness
(`crypto.randomInt`, `crypto.randomBytes`) is made explicit: every draw takes
an `entropy` argument, and `crypto.randomInt(0, range)` — uniform over
`[0, range)` — is modelled as `entropy % range`, which attains exactly the
values of `[0, range)`.  The HMAC-SHA3-256 primitive is abstracted as a
function parameter `mac`; the single-byte encoding `Buffer.from([num])`
(truncation modulo 256) is kept explicit.  JavaScript exceptions are values of
`JsError`; `console.log` output relevant to the protocol is collected in
`OutputLine` lists, and the disclosure order of each round is collected in
`Event` traces.
-/

/-- 32 random bytes (`crypto.randomBytes(32)`), modelled as a byte list. -/
abbrev Key := List Nat

/-- A hex digest, modelled abstractly as a byte list. -/
abbrev Tag := List Nat

/-- JavaScript exceptions thrown (or named by the spec) in this program.
`error` is `new Error(msg)` as thrown by `DiceConfigParser`; `typeError` is a
runtime `TypeError` (reading a property of `null`); `protocolStateError` is
the error class named by the spec's taxonomy — the source defines no such
class and no code path constructs it. -/
inductive JsError where
  | error (msg : String)
  | typeError (msg : String)
  | protocolStateError
deriving DecidableEq

/-- The message attached to an error (`e.message`). -/
def JsError.message : JsError → String
  | .error m => m
  | .typeError m => m
  | .protocolStateError => "ProtocolStateError"

/-- Protocol-relevant console output lines.  `selectionLine none` is
`My selection: null` (a `null` field interpolates as the text null). -/
inductive OutputLine where
  | hmacLine (t : Tag)
  | selectionLine (n : Option Nat)
  | keyLine (k : Key)
deriving DecidableEq

/-- Disclosure events of one protocol round, in program order. -/
inductive Event where
  | commit (t : Option Tag)
  | contribution (c : Nat)
  | reveal (s : Option Nat) (k : Option Key)
deriving DecidableEq

/-- `RandomGenerator.rand(range)` is `crypto.randomInt(0, range)`: uniform over
`[0, range)`.  The explicit `entropy` argument stands for the consumed entropy;
`entropy % range` ranges over exactly `[0, range)`. -/
def RandomGenerator.rand (range entropy : Nat) : Nat :=
  entropy % range

/-- `HmacCalculator.calcHmac(num, key)`:
`crypto.createHmac("sha3-256", key).update(Buffer.from([num])).digest("hex")`.
`mac` abstracts the HMAC-SHA3-256 primitive; `Buffer.from([num])` truncates
`num` to one byte, hence `num % 256`. -/
def HmacCalculator.calcHmac (mac : Nat → Key → Tag) (num : Nat) (key : Key) : Tag :=
  mac (num % 256) key

/-- Modelled from the spec: a `verify` function is absent from the source
(the human checks the reveal by hand); the spec defines
`verify(secretNumber, key, tag)` as recomputing the tag and comparing for
exact equality. -/
def Commitment.verify (mac : Nat → Key → Tag) (secretNumber : Nat) (key : Key)
    (tag : Tag) : Bool :=
  HmacCalculator.calcHmac mac secretNumber key == tag

/-- The `Dice` class: an ordered list of face values.  Faces are JavaScript
numbers; the decimal values this program handles are embedded as rationals. -/
structure Dice where
  values : List ℚ
deriving DecidableEq

/-- `numberOfFaces` getter: `this.values.length`. -/
def Dice.numberOfFaces (d : Dice) : Nat :=
  d.values.length

/-- `Dice.roll(index)` is the unchecked lookup `this.values[index]`:
`undefined` (here `none`) when the index is past the end. -/
def Dice.roll (d : Dice) (index : Nat) : Option ℚ :=
  d.values.get? index

/-- `ProbabilityCalculator.computeWinProbability(userDice, computerDice)`:
`wins = userDice.flatMap(x => computerDice.map(y => x > y)).filter(Boolean).length`,
`total = userDice.length * computerDice.length`, returns `wins / total`.
(It is called on the raw face lists, `getRawDiceConfig()`.) -/
def ProbabilityCalculator.computeWinProbability (userDice computerDice : List ℚ) : ℚ :=
  let wins := ((userDice.flatMap fun x => computerDice.map fun y => decide (x > y)).filter id).length
  let total := userDice.length * computerDice.length
  (wins : ℚ) / (total : ℚ)

/-- The number of ordered pairs `(a, b)` of `A × B` with `a > b`, stated the
way the spec states it: enumerate all ordered pairs, count the strict wins
(for comparison with the source's count). -/
def specWinPairs (A B : List ℚ) : Nat :=
  ((A.flatMap fun a => B.map fun b => (a, b)).filter fun ab => decide (ab.1 > ab.2)).length

/-- The modular combination of `DiceRoller.start` (line 247):
`(computerNumber + userSelection) % 6`. -/
def DiceRoller.combine (s c : Nat) : Nat :=
  (s + c) % 6

/-- The `Protocol` class state: `{range, key, computerNum, hmac, userFirst}`,
the nullable fields starting as `null`. -/
structure Protocol where
  range : Nat
  key : Option Key
  computerNum : Option Nat
  hmac : Option Tag
  userFirst : Bool
deriving DecidableEq

/-- The `Protocol` constructor: `new Protocol(range)`. -/
def Protocol.new (range : Nat) : Protocol :=
  { range := range, key := none, computerNum := none, hmac := none, userFirst := false }

/-- `Protocol.start()`: `generateKey()` (fresh 32 random bytes, the explicit
`keyE`), `generateRandomIndex(this.range)` (a `crypto.randomInt(0, range)`
draw from the explicit `numE`), `computeHmac()`, then print the HMAC.  No
state is checked: the fields are overwritten unconditionally. -/
def Protocol.start (mac : Nat → Key → Tag) (p : Protocol) (keyE : Key) (numE : Nat) :
    Protocol × List OutputLine :=
  let k := keyE
  let n := RandomGenerator.rand p.range numE
  let t := HmacCalculator.calcHmac mac n k
  ({ p with key := some k, computerNum := some n, hmac := some t },
   [OutputLine.hmacLine t])

/-- `Protocol.reveal()`: prints `My selection: ${computerNum}` (printing
null when unset), then `RandomGenerator.printKey(this.key)`, which calls
`this.key.toString(...)` — a `TypeError` when `key` is still `null`.
Returns the emitted lines together with the error, if one was thrown. -/
def Protocol.reveal (p : Protocol) : List OutputLine × Option JsError :=
  match p.key with
  | none =>
    ([OutputLine.selectionLine p.computerNum],
     some (JsError.typeError "Cannot read properties of null"))
  | some k =>
    ([OutputLine.selectionLine p.computerNum, OutputLine.keyLine k], none)

/-- `DiceRoller.isUserDice(whose)`: false exactly when `whose === "My"`. -/
def DiceRoller.isUserDice (whose : String) : Bool :=
  !(whose == "My")

/-- Result of one roll round (`DiceRoller.start`). -/
structure RollOutcome where
  protocol : Protocol
  trace : List Event
  fairResult : Nat
  rollValue : Option ℚ

/-- `DiceRoller.start(diceList)` (lines 242-252): `protocol.start()` publishes
the HMAC; the menu accepts the user's modulo-6 selection; `protocol.reveal()`
discloses number and key; the fair result is
`(computerNumber + userSelection) % 6` (a `null` `computerNumber` would
coerce to 0 in the JS addition, hence `getD 0`), and the corresponding die
face is looked up on the user's or the computer's die. -/
def DiceRoller.start (mac : Nat → Key → Tag) (whose : String) (p : Protocol)
    (userDice computerDice : Dice) (keyE : Key) (numE : Nat) (userSelection : Nat) :
    RollOutcome :=
  let p1 := (Protocol.start mac p keyE numE).1
  let result := DiceRoller.combine (p1.computerNum.getD 0) userSelection
  let value :=
    if DiceRoller.isUserDice whose then userDice.roll result else computerDice.roll result
  { protocol := p1
    trace := [Event.commit p1.hmac, Event.contribution userSelection,
              Event.reveal p1.computerNum p1.key]
    fairResult := result
    rollValue := value }

/-- Result of the first-move round (`DiceSelection.start`). -/
structure SelectionOutcome where
  protocol : Protocol
  userDice : Option Dice
  computerDice : Option Dice
  dice : List Dice
  trace : List Event

/-- `DiceSelection.start(diceList)` (lines 198-223): `protocol.start()`
publishes the HMAC; the menu accepts the user's 0/1 guess; a correct guess
(`userGuess === computerNumber`) sets `userFirst`; `protocol.reveal()`
discloses number and key.  Then, if the user moves first, the user's pick is
removed from `this.dice` by `splice(index, 1)` (`eraseIdx`) and the computer
takes a uniformly random die of the remainder (without removing it);
otherwise the computer's uniformly random pick is removed and the user picks
from the remainder (without removing it). -/
def DiceSelection.start (mac : Nat → Key → Tag) (dice : List Dice) (p : Protocol)
    (keyE : Key) (numE : Nat) (userGuess : Nat) (userPick : Nat) (computerPickE : Nat) :
    SelectionOutcome :=
  let p1 := (Protocol.start mac p keyE numE).1
  let p2 := if some userGuess == p1.computerNum then { p1 with userFirst := true } else p1
  let trace := [Event.commit p1.hmac, Event.contribution userGuess,
                Event.reveal p1.computerNum p1.key]
  let asg : Option Dice × Option Dice × List Dice :=
    if p2.userFirst then
      let u := dice.get? userPick
      let rest := dice.eraseIdx userPick
      (u, rest.get? (RandomGenerator.rand rest.length computerPickE), rest)
    else
      let idx := RandomGenerator.rand dice.length computerPickE
      let rest := dice.eraseIdx idx
      (rest.get? userPick, dice.get? idx, rest)
  { protocol := p2, userDice := asg.1, computerDice := asg.2.1, dice := asg.2.2,
    trace := trace }

/-- `str.split(sep)` of JavaScript, on the character list of the string:
splitting the empty string yields one empty field, and every separator
occurrence opens a new field. -/
def splitOnChar (sep : Char) : List Char → List (List Char)
  | [] => [[]]
  | c :: cs =>
    if c = sep then [] :: splitOnChar sep cs
    else
      match splitOnChar sep cs with
      | [] => [[c]]
      | t :: ts => (c :: t) :: ts

/-- `str.split(sep)`, as strings. -/
def jsSplit (s : String) (sep : Char) : List String :=
  (splitOnChar sep s.toList).map fun cs => String.mk cs

/-- The numeric value of a digit list, most significant first. -/
def digitsToNat (cs : List Char) : Nat :=
  cs.foldl (fun a c => 10 * a + (c.toNat - 48)) 0

/-- Whether every character is a decimal digit. -/
def allDigits (cs : List Char) : Bool :=
  cs.all (·.isDigit)

/-- The value of an unsigned decimal literal: digits, optionally with one
point and fractional digits; at least one digit overall (so a bare point
is NaN); anything else is NaN (`none`). -/
def parseUnsignedChars (cs : List Char) : Option ℚ :=
  match splitOnChar '.' cs with
  | [ip] =>
    if ip ≠ [] ∧ allDigits ip then some (digitsToNat ip : ℚ) else none
  | [ip, fp] =>
    if (ip ≠ [] ∨ fp ≠ []) ∧ allDigits ip ∧ allDigits fp then
      some ((digitsToNat ip : ℚ) + (digitsToNat fp : ℚ) / (10 : ℚ) ^ fp.length)
    else none
  | _ => none

/-- Model of the JavaScript `Number(str)` coercion on the face tokens this
program receives: the empty string coerces to 0 (JS semantics), an optional
sign precedes a plain decimal literal, and everything else is NaN (`none`).
(Hex, exponent and whitespace forms of `Number` are not modelled; no claim
touches them.) -/
def jsNumber (s : String) : Option ℚ :=
  match s.toList with
  | [] => some 0
  | '-' :: rest => (parseUnsignedChars rest).map fun q => -q
  | '+' :: rest => parseUnsignedChars rest
  | cs => parseUnsignedChars cs

/-- One entry of the `DiceConfigParser` constructor's `map`:
`str.split(",").map(Number)`, then
`if (parts.length < 2 || parts.some(isNaN)) throw new Error(...)`. -/
def parseDie (str : String) : Except JsError (List ℚ) :=
  let parts := (jsSplit str ',').map jsNumber
  if parts.length < 2 ∨ parts.any (·.isNone) then
    Except.error (JsError.error
      ("Invalid dice configuration: " ++ str ++ ". Expected comma-separated numbers."))
  else
    Except.ok (parts.map (·.getD 0))

/-- `this.argv.map(...)` with a thrown exception: the first entry that throws
aborts the whole construction. -/
def parseAll : List String → Except JsError (List (List ℚ))
  | [] => Except.ok []
  | s :: rest =>
    match parseDie s with
    | Except.error e => Except.error e
    | Except.ok d =>
      match parseAll rest with
      | Except.error e => Except.error e
      | Except.ok ds => Except.ok (d :: ds)

/-- The `DiceConfigParser` constructor (lines 62-75): drop the first two argv
entries (`argv.slice(2)`), require at least 3 dice configurations, then parse
each entry. -/
def DiceConfigParser.parse (argv : List String) : Except JsError (List (List ℚ)) :=
  let args := argv.drop 2
  if args.length < 3 then
    Except.error (JsError.error "You must provide at least 3 dice configurations.")
  else
    parseAll args

/-- How `main` begins (lines 255-264): a `ConfigurationError` is caught,
printed and followed by `process.exit(1)` before any round is constructed;
otherwise the game proceeds with the parsed dice. -/
inductive MainOutcome where
  | configFailure (msg : String) (exitCode : Nat)
  | gameStarted (dice : List Dice)
deriving DecidableEq

/-- The start of `main`: `new DiceConfigParser(process.argv)` inside
`try/catch`; on error, `console.error` and `process.exit(1)` — before any
`Protocol` round is created. -/
def mainStart (argv : List String) : MainOutcome :=
  match DiceConfigParser.parse argv with
  | Except.error e => MainOutcome.configFailure e.message 1
  | Except.ok cfg => MainOutcome.gameStarted (cfg.map Dice.mk)

/-- The protocol instance `main` creates for the house roll (line 267):
`new Protocol(5)`. -/
def main.houseRollProtocol : Protocol :=
  Protocol.new 5

/-- The protocol instance `main` creates for the human roll (line 269):
`new Protocol(5)`. -/
def main.humanRollProtocol : Protocol :=
  Protocol.new 5

/-- The protocol instance `main` creates for the first-move round (line 264):
`new Protocol(2)`. -/
def main.selectionProtocol : Protocol :=
  Protocol.new 2

/-- In a duplicate-free list, the entry at position `i` is no longer a member
once position `i` is removed. -/
theorem get_not_mem_eraseIdx {α : Type _} (l : List α) (hnd : l.Nodup) (i : Nat)
    (a : α) (ha : l.get? i = some a) : a ∉ l.eraseIdx i := by
  induction l generalizing i with
  | nil => simp at ha
  | cons x t ih =>
    cases i with
    | zero =>
      simp only [List.get?] at ha
      cases ha
      simpa [List.eraseIdx] using (List.nodup_cons.mp hnd).1
    | succ j =>
      simp only [List.get?] at ha
      intro hmem
      simp only [List.eraseIdx, List.mem_cons] at hmem
      rcases hmem with h | h
      · exact (List.nodup_cons.mp hnd).1 (h ▸ List.get?_mem ha)
      · exact ih (List.nodup_cons.mp hnd).2 j ha h

/-- The source's Boolean count of winning pairs agrees with the spec's count
of ordered pairs of the cartesian product. -/
theorem wins_eq_specWinPairs (A B : List ℚ) :
    ((A.flatMap fun x => B.map fun y => decide (x > y)).filter id).length =
      specWinPairs A B := by
  induction A with
  | nil => simp [specWinPairs]
  | cons x A ih =>
    unfold specWinPairs at *
    simp only [List.flatMap_cons, List.filter_append, List.length_append,
      ← List.countP_eq_length_filter, List.countP_map] at *
    simp only [Function.comp_def, id_eq] at *
    omega

/-- C1: the claim says the roll rounds use fairness range 6 so that every
value 0 through 5 is a possible secret.  The code instead constructs both
roll-round protocols as `new Protocol(5)` (lines 267 and 269): the committed
secret is `crypto.randomInt(0, 5)`, i.e. `entropy % 5`, always strictly below
5 — the value 5 is never a possible secret selection, although the program
itself prints that it selected a value in the range 0..5 and combines
modulo 6. -/
theorem claim_C1 :
    main.houseRollProtocol.range = 5 ∧ main.humanRollProtocol.range = 5 ∧
    ∀ (mac : Nat → Key → Tag) (keyE : Key) (numE : Nat),
      (Protocol.start mac main.houseRollProtocol keyE numE).1.computerNum =
          some (numE % 5) ∧
      (Protocol.start mac main.humanRollProtocol keyE numE).1.computerNum =
          some (numE % 5) ∧
      numE % 5 < 5 ∧
      (Protocol.start mac main.houseRollProtocol keyE numE).1.computerNum ≠ some 5 := by
  refine ⟨rfl, rfl, fun mac keyE numE => ⟨rfl, rfl, Nat.mod_lt _ (by norm_num), ?_⟩⟩
  intro h
  have : numE % 5 = 5 := by
    have := congrArg (fun o => o.getD 0) h
    simpa using this
  have h5 : numE % 5 < 5 := Nat.mod_lt _ (by norm_num)
  omega

/-- C2 counterexample: on a fresh round instance, `reveal()` does not fail
with `ProtocolStateError` — it emits the selection line (with the null
number) and then throws a `TypeError` from touching the null key. -/
theorem claim_C2_counterexample :
    (Protocol.reveal (Protocol.new 2)).2 =
        some (JsError.typeError "Cannot read properties of null") ∧
    (Protocol.reveal (Protocol.new 2)).2 ≠ some JsError.protocolStateError ∧
    (Protocol.reveal (Protocol.new 2)).1 = [OutputLine.selectionLine none] := by
  decide

/-- C2 amended: `reveal()` before `start()` throws a `TypeError` (from
formatting the null key), not a `ProtocolStateError`, and only after emitting
the `My selection: null` line; `start()` twice does not fail at all — the
second call silently regenerates key, secret and tag, overwriting the round
state (the code has no protocol state machine). -/
theorem claim_C2 :
    ((Protocol.reveal (Protocol.new 2)).2 =
        some (JsError.typeError "Cannot read properties of null") ∧
     (Protocol.reveal (Protocol.new 2)).1 = [OutputLine.selectionLine none]) ∧
    ∀ (mac : Nat → Key → Tag) (p : Protocol) (k1 k2 : Key) (n1 n2 : Nat),
      (Protocol.start mac (Protocol.start mac p k1 n1).1 k2 n2).1 =
        { range := p.range, key := some k2,
          computerNum := some (RandomGenerator.rand p.range n2),
          hmac := some (HmacCalculator.calcHmac mac (RandomGenerator.rand p.range n2) k2),
          userFirst := p.userFirst } := by
  exact ⟨⟨by decide, by decide⟩, fun mac p k1 k2 n1 n2 => rfl⟩

/-- C4: `winProbability(A, B)` equals the number of ordered pairs of `A × B`
with `faceA > faceB` divided by `card A * card B` (ties count in the
denominator only), and on the classic dice `A = [2,2,4,4,9,9]`,
`B = [1,1,6,6,8,8]` it equals `5/9`. -/
theorem claim_C4 :
    (∀ A B : List ℚ, ProbabilityCalculator.computeWinProbability A B =
        (specWinPairs A B : ℚ) / ((A.length * B.length : ℕ) : ℚ)) ∧
    ProbabilityCalculator.computeWinProbability [2, 2, 4, 4, 9, 9] [1, 1, 6, 6, 8, 8] =
        5 / 9 := by
  constructor
  · intro A B
    unfold ProbabilityCalculator.computeWinProbability
    rw [wins_eq_specWinPairs]
  · show ((20 : ℕ) : ℚ) / ((36 : ℕ) : ℚ) = 5 / 9
    norm_num

/-- C5: the modular combination `(secretNumber + contribution) % 6` of the
roll rounds stays in `[0, 6)`, and for each fixed secret the map over
contributions is a bijection of `[0, 6)`: all 6 results occur exactly once. -/
theorem claim_C5 :
    (∀ s c : Fin 6, DiceRoller.combine s.val c.val < 6) ∧
    ∀ s : Fin 6, Function.Bijective fun c : Fin 6 =>
      (⟨DiceRoller.combine s.val c.val, Nat.mod_lt _ (by norm_num)⟩ : Fin 6) := by
  decide

/-- C7: recompute-and-compare verification accepts every honestly computed
commitment: `verify(s, key, commit(s, key))` is true for every secret, key
and (deterministic) MAC primitive. -/
theorem claim_C7 (mac : Nat → Key → Tag) (secretNumber : Nat) (key : Key) :
    Commitment.verify mac secretNumber key
      (HmacCalculator.calcHmac mac secretNumber key) = true := by
  simp [Commitment.verify]

/-- C8: in both round kinds the disclosure trace is exactly commit, then
contribution, then reveal — the published tag commits to precisely the
secret and key disclosed afterwards, and tag-before-secret is never
reversed. -/
theorem claim_C8 :
    (∀ (mac : Nat → Key → Tag) (whose : String) (p : Protocol) (uD cD : Dice)
        (keyE : Key) (numE c : Nat), ∃ s k,
        (DiceRoller.start mac whose p uD cD keyE numE c).trace =
          [Event.commit (some (HmacCalculator.calcHmac mac s k)), Event.contribution c,
           Event.reveal (some s) (some k)]) ∧
    ∀ (mac : Nat → Key → Tag) (dice : List Dice) (p : Protocol) (keyE : Key)
        (numE g pick ce : Nat), ∃ s k,
        (DiceSelection.start mac dice p keyE numE g pick ce).trace =
          [Event.commit (some (HmacCalculator.calcHmac mac s k)), Event.contribution g,
           Event.reveal (some s) (some k)] := by
  constructor
  · intro mac whose p uD cD keyE numE c
    exact ⟨RandomGenerator.rand p.range numE, keyE, rfl⟩
  · intro mac dice p keyE numE g pick ce
    exact ⟨RandomGenerator.rand p.range numE, keyE, rfl⟩

/-- Picking position `i` of a duplicate-free list and then any valid position
of the remainder always yields two distinct entries, and the remainder is one
shorter. -/
theorem pick_erase_pick {α : Type _} (l : List α) (hnd : l.Nodup) (i j : Nat)
    (hi : i < l.length) (hj : j < (l.eraseIdx i).length) :
    (l.eraseIdx i).length = l.length - 1 ∧
    (l.get? i).isSome = true ∧ ((l.eraseIdx i).get? j).isSome = true ∧
    l.get? i ≠ (l.eraseIdx i).get? j := by
  have hu : l.get? i = some (l.get ⟨i, hi⟩) := List.get?_eq_get hi
  have hc : (l.eraseIdx i).get? j = some ((l.eraseIdx i).get ⟨j, hj⟩) := List.get?_eq_get hj
  refine ⟨by rw [List.length_eraseIdx, if_pos hi], by rw [hu]; rfl, by rw [hc]; rfl, ?_⟩
  rw [hu, hc]
  intro hEq
  have hab := Option.some.inj hEq
  have hb : (l.eraseIdx i).get ⟨j, hj⟩ ∈ l.eraseIdx i := List.get_mem _ _ _
  exact get_not_mem_eraseIdx l hnd i _ hu (hab ▸ hb)

/-- C3 amended: over one game the dice list shrinks by exactly one element
(3 to 2) — only the first-assigned die is removed by `splice`; the
second-assigned die is chosen among the remainder but not removed — it never
grows, each party is assigned exactly one die, and (the configured dice being
pairwise distinct) the two assigned dice are never equal.  The pick bound is
exactly the menu validity of the branch taken: when the user moves first
(correct guess, or `userFirst` already set) the menu offers all 3 dice,
otherwise the 2 remaining dice. -/
theorem claim_C3 (mac : Nat → Key → Tag) (dice : List Dice) (p : Protocol)
    (keyE : Key) (numE userGuess userPick computerPickE : Nat)
    (hnd : dice.Nodup) (h3 : dice.length = 3)
    (hpick : userPick <
      if (userGuess == RandomGenerator.rand p.range numE) || p.userFirst then 3 else 2) :
    (DiceSelection.start mac dice p keyE numE userGuess userPick computerPickE).dice.length
        = 2 ∧
    (DiceSelection.start mac dice p keyE numE userGuess userPick computerPickE).userDice.isSome
        = true ∧
    (DiceSelection.start mac dice p keyE numE userGuess userPick computerPickE).computerDice.isSome
        = true ∧
    (DiceSelection.start mac dice p keyE numE userGuess userPick computerPickE).userDice
      ≠ (DiceSelection.start mac dice p keyE numE userGuess userPick computerPickE).computerDice := by
  unfold DiceSelection.start
  simp only []
  have huf : ∀ (hP3 : userPick < dice.length)
      (hcl : RandomGenerator.rand (dice.eraseIdx userPick).length computerPickE
        < (dice.eraseIdx userPick).length),
      (dice.eraseIdx userPick).length = 2 ∧
      (dice.get? userPick).isSome = true ∧
      ((dice.eraseIdx userPick).get?
        (RandomGenerator.rand (dice.eraseIdx userPick).length computerPickE)).isSome = true ∧
      dice.get? userPick ≠ (dice.eraseIdx userPick).get?
        (RandomGenerator.rand (dice.eraseIdx userPick).length computerPickE) := by
    intro hP3 hcl
    obtain ⟨e1, e2, e3, e4⟩ := pick_erase_pick dice hnd userPick _ hP3 hcl
    exact ⟨by omega, e2, e3, e4⟩
  have hufOfBound : userPick < 3 →
      (dice.eraseIdx userPick).length = 2 ∧
      (dice.get? userPick).isSome = true ∧
      ((dice.eraseIdx userPick).get?
        (RandomGenerator.rand (dice.eraseIdx userPick).length computerPickE)).isSome = true ∧
      dice.get? userPick ≠ (dice.eraseIdx userPick).get?
        (RandomGenerator.rand (dice.eraseIdx userPick).length computerPickE) := by
    intro hp3
    have hP3 : userPick < dice.length := by omega
    have hrest2 : (dice.eraseIdx userPick).length = 2 := by
      rw [List.length_eraseIdx, if_pos hP3, h3]
    exact huf hP3 (by rw [hrest2]; exact Nat.mod_lt _ (by norm_num))
  have hcf : ∀ (hidx : RandomGenerator.rand dice.length computerPickE < dice.length)
      (hjl : userPick <
        (dice.eraseIdx (RandomGenerator.rand dice.length computerPickE)).length),
      (dice.eraseIdx (RandomGenerator.rand dice.length computerPickE)).length = 2 ∧
      ((dice.eraseIdx (RandomGenerator.rand dice.length computerPickE)).get? userPick).isSome
          = true ∧
      (dice.get? (RandomGenerator.rand dice.length computerPickE)).isSome = true ∧
      (dice.eraseIdx (RandomGenerator.rand dice.length computerPickE)).get? userPick
        ≠ dice.get? (RandomGenerator.rand dice.length computerPickE) := by
    intro hidx hjl
    obtain ⟨e1, e2, e3, e4⟩ := pick_erase_pick dice hnd _ userPick hidx hjl
    exact ⟨by omega, e3, e2, fun hEq => e4 hEq.symm⟩
  have hidx : RandomGenerator.rand dice.length computerPickE < dice.length := by
    rw [h3]; exact Nat.mod_lt _ (by norm_num)
  have hrest2b : (dice.eraseIdx (RandomGenerator.rand dice.length computerPickE)).length = 2 := by
    rw [List.length_eraseIdx, if_pos hidx, h3]
  split
  case isTrue h =>
    have hg : some userGuess = some (RandomGenerator.rand p.range numE) := eq_of_beq h
    have hg2 : userGuess = RandomGenerator.rand p.range numE := Option.some.inj hg
    have hcond : ((userGuess == RandomGenerator.rand p.range numE) || p.userFirst) = true := by
      rw [hg2]
      simp
    rw [if_pos hcond] at hpick
    exact hufOfBound hpick
  case isFalse h =>
    split
    case isTrue h2 =>
      have hpu : p.userFirst = true := h2
      have hcond : ((userGuess == RandomGenerator.rand p.range numE) || p.userFirst) = true := by
        rw [hpu]
        simp
      rw [if_pos hcond] at hpick
      exact hufOfBound hpick
    case isFalse h2 =>
      have hfp : ¬ (p.userFirst = true) := h2
      have hpu : p.userFirst = false := by simpa using hfp
      have hbeq : (userGuess == RandomGenerator.rand p.range numE) = false := by
        cases hb : (userGuess == RandomGenerator.rand p.range numE)
        · rfl
        · exfalso
          apply h
          have hg2 : userGuess = RandomGenerator.rand p.range numE := eq_of_beq hb
          have : (some userGuess == some (RandomGenerator.rand p.range numE)) = true := by
            rw [hg2]
            exact beq_self_eq_true _
          exact this
      have hnc : ¬ (((userGuess == RandomGenerator.rand p.range numE) || p.userFirst) = true) := by
        rw [hbeq, hpu]
        simp
      rw [if_neg hnc] at hpick
      exact hcf hidx (by omega)

/-- C3 counterexample: on a 3-die game both parties get a die assigned, yet
the dice list ends at 2 elements, not 1 — the set does not shrink after the
second assignment event, refuting the claimed 3 → 2 → 1 evolution. -/
theorem claim_C3_counterexample :
    (DiceSelection.start (fun _ _ => []) [Dice.mk [1, 2], Dice.mk [3, 4], Dice.mk [5, 6]]
        (Protocol.new 2) [] 0 0 0 0).userDice.isSome = true ∧
    (DiceSelection.start (fun _ _ => []) [Dice.mk [1, 2], Dice.mk [3, 4], Dice.mk [5, 6]]
        (Protocol.new 2) [] 0 0 0 0).computerDice.isSome = true ∧
    ¬ (DiceSelection.start (fun _ _ => []) [Dice.mk [1, 2], Dice.mk [3, 4], Dice.mk [5, 6]]
        (Protocol.new 2) [] 0 0 0 0).dice.length = 1 := by
  decide

/-- C3 witness: the amended statement instantiated on a concrete user-first
game (correct guess) in which the user picks the last die, index 2 — the menu
offers all three dice when the user moves first. -/
theorem claim_C3_witness :
    ([Dice.mk [1, 2], Dice.mk [3, 4], Dice.mk [5, 6]].Nodup ∧
     [Dice.mk [1, 2], Dice.mk [3, 4], Dice.mk [5, 6]].length = 3 ∧
     (2 : Nat) <
       if ((0 : Nat) == RandomGenerator.rand (Protocol.new 2).range 0)
           || (Protocol.new 2).userFirst then 3 else 2) ∧
    ((DiceSelection.start (fun _ _ => []) [Dice.mk [1, 2], Dice.mk [3, 4], Dice.mk [5, 6]]
        (Protocol.new 2) [] 0 0 2 0).dice.length = 2 ∧
     (DiceSelection.start (fun _ _ => []) [Dice.mk [1, 2], Dice.mk [3, 4], Dice.mk [5, 6]]
        (Protocol.new 2) [] 0 0 2 0).userDice.isSome = true ∧
     (DiceSelection.start (fun _ _ => []) [Dice.mk [1, 2], Dice.mk [3, 4], Dice.mk [5, 6]]
        (Protocol.new 2) [] 0 0 2 0).computerDice.isSome = true ∧
     (DiceSelection.start (fun _ _ => []) [Dice.mk [1, 2], Dice.mk [3, 4], Dice.mk [5, 6]]
        (Protocol.new 2) [] 0 0 2 0).userDice
       ≠ (DiceSelection.start (fun _ _ => []) [Dice.mk [1, 2], Dice.mk [3, 4], Dice.mk [5, 6]]
        (Protocol.new 2) [] 0 0 2 0).computerDice) :=
  ⟨⟨by decide, by decide, by decide⟩,
   claim_C3 (fun _ _ => []) [Dice.mk [1, 2], Dice.mk [3, 4], Dice.mk [5, 6]]
     (Protocol.new 2) [] 0 0 2 0 (by decide) (by decide) (by decide)⟩

/-- An entry whose comma split has fewer than two fields makes the parser
throw. -/
theorem parseDie_error_of_short (s : String) (h : (jsSplit s ',').length < 2) :
    ∃ e, parseDie s = Except.error e := by
  unfold parseDie
  rw [if_pos]
  · exact ⟨_, rfl⟩
  · left
    simpa using h

/-- An entry with a non-numeric face token makes the parser throw. -/
theorem parseDie_error_of_nan (s tok : String) (htok : tok ∈ jsSplit s ',')
    (hnan : jsNumber tok = none) : ∃ e, parseDie s = Except.error e := by
  unfold parseDie
  rw [if_pos]
  · exact ⟨_, rfl⟩
  · right
    simp only [List.any_eq_true, List.mem_map]
    exact ⟨none, ⟨tok, htok, hnan⟩, rfl⟩

/-- A throwing entry anywhere in the list makes the whole mapped construction
throw. -/
theorem parseAll_error_of_mem (l : List String) (s : String) (hs : s ∈ l)
    (he : ∃ e, parseDie s = Except.error e) : ∃ e, parseAll l = Except.error e := by
  induction l with
  | nil => simp at hs
  | cons a t ih =>
    unfold parseAll
    rcases List.mem_cons.mp hs with rfl | hmem
    · obtain ⟨e, hpe⟩ := he
      rw [hpe]
      exact ⟨e, rfl⟩
    · cases hpa : parseDie a with
      | error e => exact ⟨e, rfl⟩
      | ok d =>
        obtain ⟨e, hpt⟩ := ih hmem
        rw [hpt]
        exact ⟨e, rfl⟩

/-- C6: with fewer than 3 dice configurations, or any configuration of fewer
than 2 faces, or any non-numeric face token, `main` catches the configuration
error and exits with status 1 before any protocol round exists
(`MainOutcome.configFailure` is produced by the `catch` block that runs
before any `Protocol` is constructed, and carries the thrown descriptive
message). -/
theorem claim_C6 (argv : List String)
    (h : (argv.drop 2).length < 3 ∨
         (∃ s ∈ argv.drop 2, (jsSplit s ',').length < 2) ∨
         (∃ s ∈ argv.drop 2, ∃ tok ∈ jsSplit s ',', jsNumber tok = none)) :
    ∃ msg, mainStart argv = MainOutcome.configFailure msg 1 := by
  unfold mainStart DiceConfigParser.parse
  by_cases hlen : (argv.drop 2).length < 3
  · rw [if_pos hlen]
    exact ⟨_, rfl⟩
  · rw [if_neg hlen]
    rcases h with h | ⟨s, hs, hshort⟩ | ⟨s, hs, tok, htok, hnan⟩
    · exact absurd h hlen
    · obtain ⟨e, hpa⟩ := parseAll_error_of_mem _ s hs (parseDie_error_of_short s hshort)
      rw [hpa]
      exact ⟨_, rfl⟩
    · obtain ⟨e, hpa⟩ := parseAll_error_of_mem _ s hs (parseDie_error_of_nan s tok htok hnan)
      rw [hpa]
      exact ⟨_, rfl⟩

/-- C6 witness: a two-entry configuration list fails before any round. -/
theorem claim_C6_witness :
    ((["node", "game", "1,2", "2,3"].drop 2).length < 3 ∨
     (∃ s ∈ ["node", "game", "1,2", "2,3"].drop 2, (jsSplit s ',').length < 2) ∨
     (∃ s ∈ ["node", "game", "1,2", "2,3"].drop 2, ∃ tok ∈ jsSplit s ',',
        jsNumber tok = none)) ∧
    ∃ msg, mainStart ["node", "game", "1,2", "2,3"] = MainOutcome.configFailure msg 1 :=
  ⟨Or.inl (by decide), claim_C6 ["node", "game", "1,2", "2,3"] (Or.inl (by decide))⟩

/-- C9: `roll` is an unchecked positional lookup — it yields a face exactly
for indices below `numberOfFaces` — and for every die the configuration
surface accepts (at least 2 faces) that has fewer than 6 faces, some roll
index reachable in the roll rounds (the modulo-6 combination ranges over
`[0, 6)`) falls past the end of the face list and yields no value. -/
theorem claim_C9 (d : Dice) (h2 : 2 ≤ d.numberOfFaces) (h6 : d.numberOfFaces < 6) :
    (∀ i, (d.roll i).isSome = true ↔ i < d.numberOfFaces) ∧
    ∃ s c, s < 6 ∧ c < 6 ∧ d.roll (DiceRoller.combine s c) = none := by
  constructor
  · intro i
    unfold Dice.roll Dice.numberOfFaces
    rw [← Nat.not_le, ← List.get?_eq_none]
    cases h : d.values.get? i <;> simp [h]
  · refine ⟨0, 5, by norm_num, by norm_num, ?_⟩
    unfold Dice.roll DiceRoller.combine
    rw [List.get?_eq_none]
    show d.values.length ≤ (0 + 5) % 6
    unfold Dice.numberOfFaces at h6
    omega

/-- C9 witness: the two-faced die `[1, 2]` is accepted by the configuration
check yet a reachable roll index misses its face list. -/
theorem claim_C9_witness :
    (2 ≤ Dice.numberOfFaces (Dice.mk [1, 2]) ∧ Dice.numberOfFaces (Dice.mk [1, 2]) < 6) ∧
    ((∀ i, ((Dice.mk [1, 2]).roll i).isSome = true ↔ i < Dice.numberOfFaces (Dice.mk [1, 2])) ∧
     ∃ s c, s < 6 ∧ c < 6 ∧ (Dice.mk [1, 2]).roll (DiceRoller.combine s c) = none) :=
  ⟨⟨by decide, by decide⟩, claim_C9 (Dice.mk [1, 2]) (by decide) (by decide)⟩

/-- C10: the configuration surface accepts non-integer and negative numeric
face tokens: three configurations containing values such as 1.5 and -2.5
construct successfully, each die holding exactly the parsed numbers in their
original order. -/
theorem claim_C10 :
    DiceConfigParser.parse ["node", "game", "1.5,-2.5", "0.25,3", "-1,2,7"] =
      Except.ok [[3 / 2, -5 / 2], [1 / 4, 3], [-1, 2, 7]] := by
  show Except.ok [[(1 : ℚ) + (5 : ℚ) / (10 : ℚ) ^ 1, -((2 : ℚ) + (5 : ℚ) / (10 : ℚ) ^ 1)],
                  [(0 : ℚ) + (25 : ℚ) / (10 : ℚ) ^ 2, ((3 : ℕ) : ℚ)],
                  [-((1 : ℕ) : ℚ), ((2 : ℕ) : ℚ), ((7 : ℕ) : ℚ)]] =
       Except.ok [[3 / 2, -5 / 2], [1 / 4, 3], [-1, 2, 7]]
  norm_num
